import Mathlib

/-!
Shallow embedding of the legal-rag repository's core pipeline in Lean 4,
with theorems settling the specification claims.

Conventions:
* Python `str` is modelled as Lean `String` where no character-level
  processing occurs, and as `List Char` inside the chunkers, which slice
  and strip character lists.
* Machine integers are `Int`/`Nat` (Python ints are unbounded).
* Python floats returned by the metric functions are modelled as `Rat`.
* External collaborators (the vector store, the LLM, the spaCy sentence
  splitter, the seq2seq propositioner model) are passed in as explicit
  oracle arguments; everything else is translated from the source.
-/

namespace LegalRag

/-! ## Evaluation metrics (src/evaluation/metrics.py) -/

/-- A result document as consumed by the metric functions: the `hit` flag and
the optional 1-indexed `rank` (`None` in Python becomes `none`). -/
structure EvalResult where
  hit : Bool
  rank : Option Int
deriving DecidableEq, Repr

/-- `calculate_hit_rate_at_k` (metrics.py lines 27-42): empty input returns 0;
otherwise the fraction of results with `result.hit and result.rank is not None
and result.rank <= k`. -/
def calculate_hit_rate_at_k (results : List EvalResult) (k : Int) : Rat :=
  if results = [] then 0
  else
    ((results.countP (fun r =>
        r.hit && (match r.rank with
          | some rk => decide (rk ≤ k)
          | none => false))) : Rat) / (results.length : Rat)

/-! ## Progress tracker (src/distributed_task/progress_tracker.py)

The Redis keys for one job are modelled as a record: the three integer
counter keys (absent key = `none`; Redis `INCR` on an absent key writes 1)
and the JSON snapshot key `ingestion_progress:<job_id>`.  The snapshot is
written in exactly three shapes (processing / completed / failed), modelled
as an inductive.  Wall-clock fields (`start_time`, `updated_at`,
`total_time_seconds`, `estimated_time_remaining_seconds`) and the float
`progress_percentage` are time- and float-valued and are not modelled. -/

/-- The three JSON shapes the tracker writes to `ingestion_progress:<job_id>`. -/
inductive Snapshot where
  /-- written by `initialize_counters` and `increment_processed` -/
  | processing (total processed successful failed left : Int) (current_file : String)
  /-- written by `set_completed` -/
  | completed (total processed successful failed left : Int)
  /-- written by `set_failed` -/
  | failedSnap (error_message : String)
deriving DecidableEq, Repr

/-- The Redis state relevant to one job: the three counter keys and the
snapshot key.  `none` means the key is absent. -/
structure TrackState where
  processed : Option Int
  successful : Option Int
  failed : Option Int
  snapshot : Option Snapshot
deriving DecidableEq, Repr

/-- Redis `INCR`: an absent key is treated as 0, so it becomes 1. -/
def incrKey : Option Int → Option Int
  | none => some 1
  | some v => some (v + 1)

/-- `int(redis.get(key) or 0)`: an absent key reads as 0. -/
def getOr0 : Option Int → Int
  | none => 0
  | some v => v

/-- `ProgressTracker.initialize_counters` (lines 19-49): set the three
counters to 0 and write the initial processing snapshot. -/
def initialize_counters (total_documents : Int) (_st : TrackState) : TrackState :=
  { processed := some 0
    successful := some 0
    failed := some 0
    snapshot := some (.processing total_documents 0 0 0 total_documents
      "Starting parallel processing...") }

/-- `total_documents` as read back by `increment_processed` via
`current_progress.get("total_documents", 1)`: the failed snapshot carries no
such field, so the Python default 1 applies. -/
def snapshotTotal : Snapshot → Int
  | .processing total _ _ _ _ _ => total
  | .completed total _ _ _ _ => total
  | .failedSnap _ => 1

/-- `ProgressTracker.increment_processed` (lines 51-107): pipeline-increment
`processed` and one of `successful`/`failed`, read the counters back, then
fetch the snapshot; if the snapshot key is absent, return (lines 69-70)
without writing anything further; otherwise rewrite the processing
snapshot from the counter values. -/
def increment_processed (success : Bool) (current_file : String)
    (st : TrackState) : TrackState :=
  let p := incrKey st.processed
  let s := if success then incrKey st.successful else st.successful
  let f := if success then st.failed else incrKey st.failed
  let processed := getOr0 p
  let successful := getOr0 s
  let failed := getOr0 f
  match st.snapshot with
  | none => { st with processed := p, successful := s, failed := f }
  | some prog =>
      let total := snapshotTotal prog
      { processed := p
        successful := s
        failed := f
        snapshot := some (.processing total processed successful failed
          (max 0 (total - processed)) current_file) }

/-- `ProgressTracker.set_completed` (lines 146-174): write the terminal
snapshot (total and processed both equal `successful + failed`,
`documents_left = 0`) and delete the three counter keys. -/
def set_completed (successful_documents failed_documents : Int)
    (_st : TrackState) : TrackState :=
  { processed := none
    successful := none
    failed := none
    snapshot := some (.completed (successful_documents + failed_documents)
      (successful_documents + failed_documents)
      successful_documents failed_documents 0) }

/-- `ProgressTracker.set_failed` (lines 176-198): write the failed snapshot
and delete the three counter keys. -/
def set_failed (error_message : String) (_st : TrackState) : TrackState :=
  { processed := none
    successful := none
    failed := none
    snapshot := some (.failedSnap error_message) }

/-- The counter invariant of the spec: the value read from the `processed`
key equals the sum of the values read from `successful` and `failed`. -/
def counterInv (st : TrackState) : Prop :=
  getOr0 st.processed = getOr0 st.successful + getOr0 st.failed

instance : DecidablePred counterInv := fun _ =>
  inferInstanceAs (Decidable (_ = _))

/-- Run a sequence of increment calls, one per flag in `bs`. -/
def runIncrements (bs : List Bool) (file : String) (st : TrackState) : TrackState :=
  bs.foldl (fun s b => increment_processed b file s) st

/-! ## Job scheduler (src/distributed_task/ingestion_tasks.py) -/

/-- Python `str.lower()` (ASCII case folding suffices for file extensions). -/
def pyLower (s : String) : String := ⟨s.data.map Char.toLower⟩

/-- Python `str.endswith(suffix)`. -/
def pyEndsWith (s suffix : String) : Bool := suffix.data.isSuffixOf s.data

/-- `os.path.join(folder, f)` for a normalized absolute folder and a plain
file name from `os.listdir`. -/
def pyPathJoin (folder f : String) : String :=
  if folder = "" then f
  else if pyEndsWith folder "/" then folder ++ f
  else folder ++ "/" ++ f

/-- File enumeration of `ingest_documents_task` (lines 132-140): for each
requested extension, the folder entries whose lower-cased name ends with
`"." + file_type.lower()`, joined onto the folder path, concatenated over
the file types in order. -/
def listMatchingFiles (folderPath : String) (entries : List String)
    (fileTypes : List String) : List String :=
  fileTypes.flatMap (fun ft =>
    (entries.filter (fun f => pyEndsWith (pyLower f) ("." ++ pyLower ft))).map
      (fun f => pyPathJoin folderPath f))

/-- Observable outcome of the master task: either the empty-folder early
return (line 145), a fan-out of one subtask per file (lines 158-186), or the
scheduling-failure path (lines 188-194). -/
inductive IngestOutcome where
  | noFiles
  | scheduled (files : List String)
  | schedulingFailed (error : String)
deriving DecidableEq, Repr

/-- `ingest_documents_task` (lines 96-194), up to the fan-out decision.
`folderExists` and `entries` stand for `os.path.exists` and `os.listdir` on
the (already normalized) folder path.  A missing folder raises
`FileNotFoundError`, caught at line 188, which calls `set_failed`.  If no
file matches, the job is completed with `(0, 0)` and the task returns
before any subtask group is created.  Otherwise counters are initialized
for `len(files)` and one subtask per file is scheduled. -/
def ingest_documents_task (folderExists : Bool) (entries : List String)
    (folderPath : String) (fileTypes : List String) (st : TrackState) :
    IngestOutcome × TrackState :=
  if !folderExists then
    (.schedulingFailed
      ("Master task ingestion failed to schedule: Folder not found: " ++ folderPath),
      set_failed
        ("Master task ingestion failed to schedule: Folder not found: " ++ folderPath) st)
  else
    let files := listMatchingFiles folderPath entries fileTypes
    if files = [] then
      (.noFiles, set_completed 0 0 st)
    else
      (.scheduled files, initialize_counters files.length st)

/-! ## Query enhancer (src/agents/query_enhancer/agent.py)

The LLM call is external: `resp = none` stands for the two failure modes
that the code maps to the same fallback — an exception from `llm.call`
(caught at line 73) and a response without a list-valued
`enhanced_queries` attribute (line 69) — and `resp = some qs` stands for a
structured response carrying the list `qs`. -/

/-- `QueryEnhancerAgent.enhance_query` (lines 31-76): on failure return
`[original_query]`; on success insert the original query at position 0
only when it is not already in the list, then truncate to 5. -/
def enhance_query (original_query : String) (resp : Option (List String)) :
    List String :=
  match resp with
  | none => [original_query]
  | some enhanced_queries =>
      (if original_query ∈ enhanced_queries then enhanced_queries
       else original_query :: enhanced_queries).take 5

/-! ## Multi-query retrieval (src/agents/retrieval_agent/agent.py)

With at least one of the LLM flags set, `RetrievalAgent.retrieve` builds
`queries_to_search` and then calls `self.retriever.retrieve(query=q,
top_k=per_query_k)` once per query (lines 61-84).  `searchCalls` is the
trace of `(query, per_query_k)` argument pairs of those retriever calls. -/

/-- `queries_to_search` (lines 61-70): the original question, or the first 3
enhanced queries when the enhancer is enabled.  (`enhance_query` never
raises, so the `except` fallback at lines 68-70 is unreachable.) -/
def queries_to_search (question : String) (use_query_enhancer : Bool)
    (enhResp : Option (List String)) : List String :=
  if use_query_enhancer then (enhance_query question enhResp).take 3
  else [question]

/-- The `(query, per_query_k)` pairs passed to the retriever (lines 77-83):
`per_query_k = max(4, (top_k // len(queries_to_search)) *
per_query_multiplier)` with `per_query_multiplier = 2 if use_reranking
else 1`. -/
def searchCalls (question : String) (use_query_enhancer use_reranking : Bool)
    (enhResp : Option (List String)) (top_k : Nat) : List (String × Nat) :=
  let queries := queries_to_search question use_query_enhancer enhResp
  let per_query_multiplier := if use_reranking then 2 else 1
  queries.map (fun q =>
    (q, max 4 ((top_k / queries.length) * per_query_multiplier)))

/-! ## Reranking agent (src/agents/reranking_agent/agent.py) -/

/-- One entry of the LLM's structured `RerankedResults` response
(src/agents/schemas.py): a document index and a relevance score
(`float`, modelled as `Rat`). -/
structure RankedDocument where
  index : Int
  relevance_score : Rat
  reasoning : Option String := none
deriving DecidableEq, Repr

/-- Document preview for the prompt (agent.py line 107): texts longer than
500 characters are truncated and suffixed with `"..."`. -/
def truncateDoc (doc : String) : String :=
  if 500 < doc.length then String.mk (doc.data.take 500) ++ "..." else doc

/-- The indexed document blocks of the reranking prompt (lines 104-108). -/
def formatted_docs (documents : List String) : List String :=
  documents.enum.map (fun p => "Document " ++ toString p.1 ++ ":\n" ++ truncateDoc p.2)

/-- `RerankingAgent._build_reranking_prompt` (lines 100-135).  The fixed
instruction prose is abbreviated; the data content (query, formatted
documents, index bound) is kept. -/
def build_reranking_prompt (query : String) (documents : List String) : String :=
  "You are analyzing legal documents for relevance to a user's question" ++
  " about European legislation.\n\nUser's Question: \"" ++ query ++
  "\"\n\nDocuments to Rank:\n" ++
  String.intercalate "\n\n" (formatted_docs documents) ++
  "\n\nReturn a relevance score for each document based on the document index (0 to " ++
  toString ((documents.length : Int) - 1) ++ ")."

/-- `sources_to_rank` (line 56): the sources truncated to
`max_docs_to_rerank = min(len(documents), 20)`, or `doc_<i>` placeholders
when `sources` is `None` or empty (Python truthiness of the list). -/
def sources_to_rank (documents : List String) (sources : Option (List String)) :
    List String :=
  let max_docs_to_rerank := min documents.length 20
  match sources with
  | some ss =>
      if ss = [] then (List.range max_docs_to_rerank).map (fun i => "doc_" ++ toString i)
      else ss.take max_docs_to_rerank
  | none => (List.range max_docs_to_rerank).map (fun i => "doc_" ++ toString i)

/-- `RerankingAgent.rerank` (lines 31-98).  `llm` maps the built prompt to
the structured response; `none` covers both an exception (line 95) and an
invalid response shape (line 90), which execute identical fallback code.
On a valid response the entries are stably sorted by descending
`relevance_score` (Python `list.sort(key=..., reverse=True)`), truncated
to `top_k`, and entries with an in-range index pick the corresponding
document and source (out-of-range indices are skipped, line 83).  Python
would raise `IndexError` if `sources_to_rank` were shorter than a valid
index — that exception is caught by the same handler; here `getD ""` stands
for the in-range reads, which is the only case the claims touch. -/
def rerank (query : String) (documents : List String)
    (sources : Option (List String)) (top_k : Nat)
    (llm : String → Option (List RankedDocument)) : String × List String :=
  if documents = [] then ("", [])
  else
    let documents_to_rank := documents.take 20
    let srcs := sources_to_rank documents sources
    let prompt := build_reranking_prompt query documents_to_rank
    match llm prompt with
    | some ranked_docs =>
        let sorted := ranked_docs.mergeSort
          (fun a b => b.relevance_score ≤ a.relevance_score)
        let top_ranked := sorted.take top_k
        let picked := top_ranked.filterMap (fun rd =>
          if 0 ≤ rd.index ∧ rd.index < (documents_to_rank.length : Int) then
            some (documents_to_rank.getD rd.index.toNat "",
                  srcs.getD rd.index.toNat "")
          else none)
        (String.intercalate "\n\n" (picked.map Prod.fst), picked.map Prod.snd)
    | none =>
        (String.intercalate "\n\n" (documents_to_rank.take top_k),
         srcs.take top_k)

/-! ## Direct retrieval (src/retrieval/simple_qdrant_retriever.py and
src/agents/retrieval_agent/agent.py line 57)

The external LlamaIndex retriever returns at most `top_k` scored nodes;
the code reads only each node's `text` and `metadata`, never its score, so
a node is modelled as text plus metadata dict. -/

/-- A node returned by the external LlamaIndex retriever: its text and its
metadata dict (`hasattr(node, 'metadata') and node.metadata` is falsy for
an empty dict, modelled as the empty list). -/
structure RNode where
  text : String
  metadata : List (String × String)
deriving DecidableEq, Repr

/-- The `sources` set of `SimpleQdrantRetriever.retrieve` (lines 73-81):
each node with truthy metadata contributes `metadata.get("source",
"unknown")` unless it equals `"unknown"`.  Python collects these in a
`set` and returns `list(sources)` whose iteration order is unspecified;
it is determinized here as insertion order. -/
def collectSources (nodes : List RNode) : List String :=
  nodes.foldl (fun acc node =>
    if node.metadata ≠ [] then
      let source := (node.metadata.lookup "source").getD "unknown"
      if source ≠ "unknown" ∧ source ∉ acc then acc ++ [source] else acc
    else acc) []

/-- `SimpleQdrantRetriever.retrieve` (lines 60-84), given the nodes the
external retriever produced: returns the pair of the `"\n\n"`-joined node
texts and the source list.  (When no connection could be established the
method returns `("", [])`, line 66; the connected case is modelled.) -/
def simple_qdrant_retrieve (nodes : List RNode) : String × List String :=
  (String.intercalate "\n\n" (nodes.map (fun n => n.text)), collectSources nodes)

/-- `RetrievalAgent.retrieve` with `use_query_enhancer=False` and
`use_reranking=False` (agent.py lines 55-57): the value of
`SimpleQdrantRetriever.retrieve` is returned unchanged. -/
def retrieval_agent_retrieve_noLLM (nodes : List RNode) : String × List String :=
  simple_qdrant_retrieve nodes

/-! ## Recursive-overlap chunker (src/chunking/recursive_overlap_chunker.py)

The chunkers slice and strip character sequences, so their text is
modelled as `List Char`. -/

/-- The whitespace recognized by Python `str.strip()`. -/
def isPySpace (c : Char) : Bool :=
  c == ' ' || c == '\t' || c == '\n' || c == '\r' || c == '\x0B' || c == '\x0C'

/-- Python `str.strip()`. -/
def pyStrip (s : List Char) : List Char :=
  ((s.dropWhile isPySpace).reverse.dropWhile isPySpace).reverse

/-- Python `str.split(sep)` for non-empty `sep`, with an accumulator for
the current piece: split at the leftmost, non-overlapping occurrences of
`sep`, keeping empty pieces.  (On an empty separator Python raises
`ValueError`; here the split branch is then never taken, so the result is
`[s]` — unreachable, as the chunker's separators are all non-empty.) -/
def pySplitAux (sep : List Char) : List Char → List Char → List (List Char)
  | [], acc => [acc.reverse]
  | c :: rest, acc =>
      if sep.isPrefixOf (c :: rest) ∧ sep ≠ [] then
        acc.reverse :: pySplitAux sep (rest.drop (sep.length - 1)) []
      else pySplitAux sep rest (c :: acc)
termination_by s _ => s.length
decreasing_by
  · simp [List.length_drop]; omega
  · simp

/-- Python `str.split(sep)`. -/
def pySplit (sep s : List Char) : List (List Char) := pySplitAux sep s []

/-- The hard slices of the deepest level of `_split_fragment` (lines
52-56): consecutive `chunk_size`-character slices, each to be stripped and
kept when non-empty.  For `chunk_size = 0` Python's `range(0, n, 0)`
raises; the constructor guarantees `chunk_size ≥ 1` (lines 17-19), for
which `f.drop (cs - 1)` equals `(c :: f).drop cs`. -/
def hardSlices (cs : Nat) : List Char → List (List Char)
  | [] => []
  | c :: f => ((c :: f).take cs) :: hardSlices cs (f.drop (cs - 1))
termination_by s => s.length
decreasing_by simp [List.length_drop]; omega

/-- `buffer[:-len(separator)] if buffer.endswith(separator)` (lines 84-85).
Python's `buffer[:-0]` is empty, hence the `sep = []` case (unreachable for
this chunker's separators). -/
def cutTrailingSep (sep buf : List Char) : List Char :=
  if sep.isSuffixOf buf then
    if sep = [] then [] else buf.take (buf.length - sep.length)
  else buf

/-- The greedy packing loop of `_split_fragment` (lines 65-86), returning
in order the fragments that the Python loop flushes into recursive
`_split_fragment(·, level + 1, chunks)` calls.  `buffer` carries the loop
buffer, including the trailing separator appended at lines 80-81 when the
buffer is non-empty and more pieces follow; the final buffer is flushed
after removing one trailing separator (lines 83-86). -/
def flushLoop (cs : Nat) (sep : List Char) :
    List (List Char) → List Char → List (List Char)
  | [], buffer => if buffer = [] then [] else [cutTrailingSep sep buffer]
  | piece :: rest, buffer =>
      let p := pyStrip piece
      if p = [] then flushLoop cs sep rest buffer
      else
        let candidate := if buffer = [] then p else buffer ++ sep ++ p
        if cs < candidate.length ∧ buffer ≠ [] then
          buffer :: flushLoop cs sep rest
            (if rest ≠ [] ∧ sep ≠ [] then p ++ sep else p)
        else if cs < candidate.length then
          p :: flushLoop cs sep rest []
        else
          flushLoop cs sep rest
            (if rest ≠ [] ∧ sep ≠ [] then candidate ++ sep else candidate)

/-- `_split_fragment` (lines 44-86): strip the fragment; emit it when it
fits in `chunk_size`; at the deepest level hard-slice; otherwise split on
the current separator, recursing directly at the next level when the
separator does not occur (`len(pieces) == 1`), else greedily packing the
pieces and recursing at the next level on each flushed buffer.  The Python
code appends into a shared `chunks` accumulator; concatenating the
per-buffer recursions over the flushed buffers, in order, yields the same
`chunks` list. -/
def splitFragment (cs : Nat) : List (List Char) → List Char → List (List Char)
  | [], fragment =>
      let f := pyStrip fragment
      if f = [] then []
      else if f.length ≤ cs then [f]
      else ((hardSlices cs f).map pyStrip).filter (fun c => c ≠ [])
  | sep :: rest, fragment =>
      let f := pyStrip fragment
      if f = [] then []
      else if f.length ≤ cs then [f]
      else
        let pieces := pySplit sep f
        if pieces.length = 1 then splitFragment cs rest f
        else (flushLoop cs sep pieces []).flatMap (fun b => splitFragment cs rest b)

/-- The separator hierarchy (constructor line 16). -/
def separators : List (List Char) :=
  [['\n', '\n'], ['\n'], ['.', ' '], [' ']]

/-- `_split_text` (lines 39-42). -/
def splitText (cs : Nat) (text : List Char) : List (List Char) :=
  (splitFragment cs separators (pyStrip text)).filter (fun c => c ≠ [])

/-- Python `s[-n:]`, used for the overlap tail and the overflow cut:
`s[-0:]` is all of `s`. -/
def pyLastSlice (n : Nat) (s : List Char) : List Char :=
  if n = 0 then s else s.drop (s.length - n)

/-- The loop of `_apply_overlap` (lines 92-106): each non-empty stripped
chunk after the first is prefixed with the last `overlap` characters of
the previous chunk; when that overflows `chunk_size`, the rightmost
`chunk_size` characters are kept. -/
def overlapLoop (cs ov : Nat) : List (List Char) → List Char → List (List Char)
  | [], _ => []
  | chunk :: rest, prev =>
      let c := pyStrip chunk
      if c = [] then overlapLoop cs ov rest prev
      else if prev = [] then c :: overlapLoop cs ov rest c
      else
        let tail := pyLastSlice ov prev
        let combined := tail ++ c
        (if cs < combined.length then pyLastSlice cs combined else combined) ::
          overlapLoop cs ov rest c

/-- `_apply_overlap` (lines 88-107): identity when the overlap is 0 or at
most one chunk exists. -/
def applyOverlap (cs ov : Nat) (chunks : List (List Char)) : List (List Char) :=
  if ov = 0 ∨ chunks.length ≤ 1 then chunks
  else overlapLoop cs ov chunks []

/-- A chunk record (src/chunking/schemas.py `ChunkItem`). -/
structure ChunkItem where
  source : String
  len_characters : Nat
  text : List Char
deriving DecidableEq, Repr

/-- `RecursiveOverlapChunker.chunk` for one input item (lines 26-37):
base-split, apply overlap, drop empties, wrap with source and length.
`cs` is `chunk_size` (validated positive by the constructor) and `ov` is
`chunk_overlap = max(0, int(chunk_size × ratio))`. -/
def recursiveChunkItem (cs ov : Nat) (item : ChunkItem) : List ChunkItem :=
  ((applyOverlap cs ov (splitText cs item.text)).filter (fun ch => ch ≠ [])).map
    (fun ch => ⟨item.source, ch.length, ch⟩)

/-- `RecursiveOverlapChunker.chunk` over a request's items (lines 26-37). -/
def recursiveChunk (cs ov : Nat) (items : List ChunkItem) : List ChunkItem :=
  items.flatMap (recursiveChunkItem cs ov)

/-! ## Semantic chunker (src/chunking/semantic_chunker.py)

External pieces are oracles: `propOracle` is the seq2seq propositioner's
behavior on non-empty text (the empty-text branch of
`T5Propositioner.propose` is in the source and modelled directly);
`sentOracle` is the spaCy sentence splitter, with `none` modelling a
raised exception (swallowed at lines 101-102); `breakOracle` maps the
buffered window texts to the break indices chosen by the embedding-based
percentile threshold (external model plus float arithmetic, lines
64-71). -/

/-- `T5Propositioner.propose` for one item (t5_propositioner.py lines
40-44): an item with empty text contributes a single empty chunk without
touching the model; otherwise the external model pipeline runs. -/
def t5ProposeItem (oracle : ChunkItem → List ChunkItem) (item : ChunkItem) :
    List ChunkItem :=
  if item.text = [] then [⟨item.source, 0, []⟩] else oracle item

/-- `_langchain_split_to_sentences` (lines 86-104): empty text returns `[]`
immediately; otherwise the spaCy splitter's sentences, or `[]` when it
raises. -/
def langchainSplitToSentences (sentOracle : List Char → Option (List (List Char)))
    (text : List Char) : List (List Char) :=
  if text = [] then []
  else
    match sentOracle text with
    | some sents => sents
    | none => []

/-- A buffered sentence group (`_combine_with_buffer`, lines 117-124).  The
`embedding` attached at lines 66-67 is never read afterwards and is
omitted. -/
structure SentGroup where
  sentence : List Char
  index : Nat
  combined : List Char
deriving DecidableEq, Repr

/-- `_combine_with_buffer` (lines 117-124): for each sentence, the
`" "`-joined window from `max(0, idx - buffer_size)` to
`min(len(sentences), idx + buffer_size + 1)`. -/
def combineWithBuffer (sentences : List (List Char)) (buffer_size : Nat) :
    List SentGroup :=
  sentences.enum.map (fun p =>
    let idx := p.1
    let start := idx - buffer_size
    let stop := min sentences.length (idx + buffer_size + 1)
    ⟨p.2, idx, List.intercalate [' '] ((sentences.drop start).take (stop - start))⟩)

/-- `_slice_by_breakpoints` (lines 149-169), as a recursion over the break
indices carrying `start_idx`.  Python's `grouped[i]` raises on an
out-of-range index; indices produced by the chunker are in range, and
`getD` with a dummy group stands for the in-range reads. -/
def sliceByBreakpoints (sentences : List (List Char)) (grouped : List SentGroup) :
    List Nat → Nat → List (List Char)
  | [], start_idx =>
      if start_idx < grouped.length then
        let left := (grouped.getD start_idx ⟨[], 0, []⟩).index
        let right := (grouped.getD (grouped.length - 1) ⟨[], 0, []⟩).index
        let segment := (sentences.drop left).take (right + 1 - left)
        if segment ≠ [] then [List.intercalate [' '] segment] else []
      else []
  | idx :: restBreaks, start_idx =>
      let end_idx := idx + 1
      let left := (grouped.getD start_idx ⟨[], 0, []⟩).index
      let right := (grouped.getD end_idx ⟨[], 0, []⟩).index
      let segment := (sentences.drop left).take (right + 1 - left)
      List.intercalate [' '] segment ::
        sliceByBreakpoints sentences grouped restBreaks (end_idx + 1)

/-- `SemanticChunker.chunk` for one item (lines 50-76), with `buffer_size`
normalized by the constructor's `max(1, ·)` (line 45).  With at most one
sentence, the trivial branch (lines 57-61) emits one chunk holding the
single sentence, or the flattened proposition text when there is none. -/
def semanticChunkItem (propOracle : ChunkItem → List ChunkItem)
    (sentOracle : List Char → Option (List (List Char)))
    (breakOracle : List (List Char) → List Nat)
    (buffer_size : Nat) (item : ChunkItem) : List ChunkItem :=
  let proposed := t5ProposeItem propOracle item
  let proposition_text := List.intercalate [' '] (proposed.map (fun c => c.text))
  let sentences := langchainSplitToSentences sentOracle proposition_text
  if sentences.length ≤ 1 then
    let text :=
      match sentences with
      | s :: _ => s
      | [] => proposition_text
    [⟨item.source, text.length, text⟩]
  else
    let grouped := combineWithBuffer sentences (max 1 buffer_size)
    let break_indices := breakOracle (grouped.map (fun g => g.combined))
    (sliceByBreakpoints sentences grouped break_indices 0).map
      (fun ch => ⟨item.source, ch.length, ch⟩)

/-- `SemanticChunker.chunk` over a request's items (lines 50-78). -/
def semanticChunk (propOracle : ChunkItem → List ChunkItem)
    (sentOracle : List Char → Option (List (List Char)))
    (breakOracle : List (List Char) → List Nat)
    (buffer_size : Nat) (items : List ChunkItem) : List ChunkItem :=
  items.flatMap (semanticChunkItem propOracle sentOracle breakOracle buffer_size)

end LegalRag

namespace LegalRag

/-! ## Claim theorems: C7, C8, C9, C10 -/

/-- C9: for every list of evaluation results and all `k1 ≤ k2`,
`hit_rate@k1 ≤ hit_rate@k2`. -/
theorem hit_rate_at_k_monotone (results : List EvalResult) (k1 k2 : Int)
    (h : k1 ≤ k2) :
    calculate_hit_rate_at_k results k1 ≤ calculate_hit_rate_at_k results k2 := by
  unfold calculate_hit_rate_at_k
  by_cases hres : results = []
  · simp [hres]
  · simp only [hres, if_false]
    have hlen : (0 : Rat) < (results.length : Rat) := by
      have : 0 < results.length := List.length_pos.mpr hres
      exact_mod_cast this
    have hcount : results.countP (fun r =>
        r.hit && (match r.rank with
          | some rk => decide (rk ≤ k1)
          | none => false)) ≤
        results.countP (fun r =>
        r.hit && (match r.rank with
          | some rk => decide (rk ≤ k2)
          | none => false)) := by
      apply List.countP_mono_left
      intro r _ hr
      cases hrk : r.rank with
      | none => simp [hrk] at hr
      | some rk =>
        simp only [hrk, Bool.and_eq_true, decide_eq_true_eq] at hr ⊢
        exact ⟨hr.1, le_trans hr.2 h⟩
    have hc : ((results.countP (fun r =>
        r.hit && (match r.rank with
          | some rk => decide (rk ≤ k1)
          | none => false)) : Nat) : Rat) ≤
        ((results.countP (fun r =>
        r.hit && (match r.rank with
          | some rk => decide (rk ≤ k2)
          | none => false)) : Nat) : Rat) := by
      exact_mod_cast hcount
    exact div_le_div_of_nonneg_right hc hlen.le

/-- Witness for C9 at a concrete input. -/
theorem hit_rate_at_k_monotone_witness :
    calculate_hit_rate_at_k [⟨true, some 2⟩, ⟨false, none⟩] 1 ≤
      calculate_hit_rate_at_k [⟨true, some 2⟩, ⟨false, none⟩] 3 :=
  hit_rate_at_k_monotone [⟨true, some 2⟩, ⟨false, none⟩] 1 3 (by decide)

/-- C7: `initialize_counters` sets all three counters to 0; a completed
`increment_processed` call preserves `processed = successful + failed`; and
any sequence of exactly `N` increments with any mix of success and failure,
starting from an initialized job, leaves `processed = N`. -/
theorem progress_counter_invariant (total : Int) (st0 : TrackState)
    (success : Bool) (file : String) (st : TrackState) (bs : List Bool)
    (hinv : counterInv st) :
    ((initialize_counters total st0).processed = some 0 ∧
      (initialize_counters total st0).successful = some 0 ∧
      (initialize_counters total st0).failed = some 0) ∧
    counterInv (increment_processed success file st) ∧
    getOr0 (runIncrements bs file (initialize_counters total st0)).processed =
      bs.length := by
  refine ⟨⟨rfl, rfl, rfl⟩, ?_, ?_⟩
  · unfold counterInv increment_processed at *
    cases success <;> cases st.snapshot <;>
      simp_all [incrKey, getOr0] <;>
      cases hp : st.processed <;> cases hs : st.successful <;>
        cases hf : st.failed <;> simp_all [incrKey, getOr0] <;> omega
  · have key : ∀ (l : List Bool) (s : TrackState) (n : Int),
        s.processed = some n →
        getOr0 (runIncrements l file s).processed = n + l.length := by
      intro l
      induction l with
      | nil => intro s n hs; simp [runIncrements, hs, getOr0]
      | cons b rest ih =>
        intro s n hs
        have hstep : (increment_processed b file s).processed = some (n + 1) := by
          unfold increment_processed
          cases s.snapshot <;> simp [hs, incrKey]
        have := ih (increment_processed b file s) (n + 1) hstep
        simp only [runIncrements, List.foldl_cons] at *
        rw [this]
        push_cast [List.length_cons]
        ring
    have := key bs (initialize_counters total st0) 0 rfl
    rw [this]
    simp

/-- Witness for C7: three increments (success, failure, success) after
initializing with total 3. -/
theorem progress_counter_invariant_witness :
    counterInv ⟨some 2, some 1, some 1, none⟩ ∧
    getOr0 (runIncrements [true, false, true] "f"
      (initialize_counters 3 ⟨none, none, none, none⟩)).processed = 3 := by
  have h := progress_counter_invariant 3 ⟨none, none, none, none⟩ true "f"
    ⟨some 2, some 1, some 1, none⟩ [true, false, true] (by decide)
  exact ⟨by decide, by exact_mod_cast h.2.2⟩

/-- C10: if the snapshot key is absent when `increment_processed` is called,
the call still increments `processed` and exactly one of
`successful`/`failed`, returns without error, and writes no snapshot. -/
theorem increment_without_snapshot (st : TrackState) (success : Bool)
    (file : String) (h : st.snapshot = none) :
    (increment_processed success file st).snapshot = none ∧
    getOr0 (increment_processed success file st).processed =
      getOr0 st.processed + 1 ∧
    (success = true →
      getOr0 (increment_processed success file st).successful =
        getOr0 st.successful + 1 ∧
      (increment_processed success file st).failed = st.failed) ∧
    (success = false →
      getOr0 (increment_processed success file st).failed =
        getOr0 st.failed + 1 ∧
      (increment_processed success file st).successful = st.successful) := by
  unfold increment_processed
  cases success <;>
    simp [h] <;>
    cases hp : st.processed <;> cases hs : st.successful <;>
      cases hf : st.failed <;> simp [incrKey, getOr0]

/-- Witness for C10 at a concrete state with the snapshot key expired. -/
theorem increment_without_snapshot_witness :
    (increment_processed true "f" ⟨some 4, some 3, some 1, none⟩).snapshot = none ∧
    getOr0 (increment_processed true "f" ⟨some 4, some 3, some 1, none⟩).processed = 5 := by
  have h := increment_without_snapshot ⟨some 4, some 3, some 1, none⟩ true "f" rfl
  refine ⟨h.1, ?_⟩
  rw [h.2.1]
  decide

/-- C8: starting a folder job on an existing folder with no files matching
the requested types marks the job completed with zero processed, successful
and failed counts, and returns without fanning out any worker task. -/
theorem empty_folder_job_completes (folderPath : String) (entries : List String)
    (fileTypes : List String) (st : TrackState)
    (h : listMatchingFiles folderPath entries fileTypes = []) :
    (ingest_documents_task true entries folderPath fileTypes st).1 =
      IngestOutcome.noFiles ∧
    (ingest_documents_task true entries folderPath fileTypes st).2.snapshot =
      some (Snapshot.completed 0 0 0 0 0) := by
  unfold ingest_documents_task
  simp [h, set_completed]

/-- Witness for C8: a folder holding only `readme.txt` when `pdf` files are
requested. -/
theorem empty_folder_job_completes_witness :
    (ingest_documents_task true ["readme.txt"] "/data" ["pdf"]
      ⟨none, none, none, none⟩).1 = IngestOutcome.noFiles :=
  (empty_folder_job_completes "/data" ["readme.txt"] ["pdf"]
    ⟨none, none, none, none⟩ (by decide)).1

/-! ## Claim theorems: C5, C2, C6, C1 -/

/-- C5, counterexample: when the LLM's list already contains the original
query at a later position, the original is not first in the returned
list — refuting "an ordered list ... with the original query first". -/
theorem enhance_query_original_not_first :
    enhance_query "q" (some ["a", "q"]) = ["a", "q"] ∧
    (enhance_query "q" (some ["a", "q"])).head? ≠ some "q" := by
  constructor <;> decide

/-- C5, amended: `enhance_query` returns at most 5 variants; on any LLM
call or parse failure it returns exactly `[original_query]` (and, being a
total function, never raises); and the original query is first whenever it
is absent from the LLM's list. -/
theorem enhance_query_contract (original_query : String)
    (resp : Option (List String)) :
    (enhance_query original_query resp).length ≤ 5 ∧
    (resp = none → enhance_query original_query resp = [original_query]) ∧
    (∀ qs, resp = some qs → original_query ∉ qs →
      (enhance_query original_query resp).head? = some original_query) := by
  refine ⟨?_, ?_, ?_⟩
  · cases resp with
    | none => simp [enhance_query]
    | some qs =>
        simp only [enhance_query]
        exact le_trans (List.length_take_le 5 _) (le_refl 5)
  · intro h; rw [h]; rfl
  · intro qs h hmem
    subst h
    simp [enhance_query, hmem]

/-- Witness for C5: the conditional branches discharged at a concrete
response. -/
theorem enhance_query_contract_witness :
    enhance_query "q" none = ["q"] ∧
    (enhance_query "q" (some ["a"])).head? = some "q" :=
  ⟨(enhance_query_contract "q" none).2.1 rfl,
   (enhance_query_contract "q" (some ["a"])).2.2 ["a"] rfl (by decide)⟩

/-- C2, counterexample: with the enhancer producing 3 queries, reranking
disabled and `top_k = 6`, every retriever call uses `per_query_k = 4`,
whereas the claim's formula `max(2, top_k / num_queries)` gives 2. -/
theorem per_query_k_counterexample :
    (searchCalls "q" true false (some ["a", "b", "c"]) 6).map Prod.snd =
      [4, 4, 4] ∧
    max 2 (6 / (searchCalls "q" true false (some ["a", "b", "c"]) 6).length) = 2 := by
  constructor <;> decide

/-- C2, amended: every retriever call issued by the multi-query path uses
`per_query_k = max(4, (top_k / num_queries) × 2)` when reranking is
enabled and `max(4, top_k / num_queries)` when reranking is disabled. -/
theorem per_query_k_formula (question : String)
    (use_query_enhancer use_reranking : Bool) (enhResp : Option (List String))
    (top_k : Nat) (c : String × Nat)
    (hc : c ∈ searchCalls question use_query_enhancer use_reranking enhResp top_k) :
    (use_reranking = true → c.2 = max 4 ((top_k /
      (searchCalls question use_query_enhancer use_reranking enhResp top_k).length) * 2)) ∧
    (use_reranking = false → c.2 = max 4 (top_k /
      (searchCalls question use_query_enhancer use_reranking enhResp top_k).length)) := by
  simp only [searchCalls, List.length_map] at hc ⊢
  obtain ⟨q, _, rfl⟩ := List.mem_map.mp hc
  cases use_reranking <;> simp

/-- Witness for C2: the single-query reranking call with `top_k = 10`
requests `max(4, 10 × 2) = 20` documents. -/
theorem per_query_k_formula_witness :
    ((("q", 20) : String × Nat)).2 =
      max 4 ((10 / (searchCalls "q" false true none 10).length) * 2) :=
  (per_query_k_formula "q" false true none 10 ("q", 20) (by decide)).1 rfl

/-- 21 distinct documents, for exercising the 20-document cap. -/
def c6docs : List String :=
  ["d0", "d1", "d2", "d3", "d4", "d5", "d6", "d7", "d8", "d9", "d10",
   "d11", "d12", "d13", "d14", "d15", "d16", "d17", "d18", "d19", "d20"]

/-- C6, counterexample: with 21 documents, `top_k = 21` and a failing LLM,
the fallback returns 20 documents, not the input truncated to `top_k`
(which would keep all 21). -/
theorem rerank_fallback_counterexample :
    (rerank "q" c6docs (some c6docs) 21 (fun _ => none)).2.length = 20 ∧
    (c6docs.take 21).length = 21 := by
  constructor <;> decide

/-- C6, amended: at most 20 documents are submitted for scoring (the
prompt is built from the prefix `documents.take 20`), and on any LLM
failure or invalid response the result is the first `min(top_k, 20)`
input documents in their original order with the matching prefix of the
sources kept parallel. -/
theorem rerank_fallback (query : String) (documents ss : List String)
    (top_k : Nat) (hdocs : documents ≠ []) (hss : ss ≠ []) :
    ((documents.take 20).length ≤ 20 ∧ documents.take 20 <+: documents) ∧
    rerank query documents (some ss) top_k (fun _ => none) =
      (String.intercalate "\n\n" (documents.take (min top_k 20)),
       ss.take (min top_k (min documents.length 20))) := by
  refine ⟨⟨by simp, List.take_prefix 20 documents⟩, ?_⟩
  simp only [rerank, sources_to_rank, hdocs, hss, if_false, if_neg hdocs, if_neg hss]
  rw [List.take_take, List.take_take, min_comm]

/-- Witness for C6 at a concrete failing call. -/
theorem rerank_fallback_witness :
    rerank "q" ["a", "b", "c"] (some ["s1", "s2", "s3"]) 2 (fun _ => none) =
      (String.intercalate "\n\n" (["a", "b", "c"].take (min 2 20)),
       ["s1", "s2", "s3"].take (min 2 (min (["a", "b", "c"] : List String).length 20))) :=
  (rerank_fallback "q" ["a", "b", "c"] ["s1", "s2", "s3"] 2 (by decide) (by decide)).2

/-! ## Claim theorems: C3, C4 -/

/-- Stripping never lengthens a string. -/
theorem pyStrip_length_le (s : List Char) : (pyStrip s).length ≤ s.length := by
  unfold pyStrip
  simp only [List.length_reverse]
  calc ((s.dropWhile isPySpace).reverse.dropWhile isPySpace).length
      ≤ (s.dropWhile isPySpace).reverse.length := (List.dropWhile_sublist _).length_le
    _ = (s.dropWhile isPySpace).length := by simp
    _ ≤ s.length := (List.dropWhile_sublist _).length_le

/-- Every hard slice has at most `chunk_size` characters. -/
theorem hardSlices_length_le (cs : Nat) :
    ∀ (f : List Char), ∀ x ∈ hardSlices cs f, x.length ≤ cs
  | [] => by simp [hardSlices]
  | c :: f => by
      intro x hx
      rw [hardSlices] at hx
      rcases List.mem_cons.mp hx with h | h
      · subst h; simp
      · exact hardSlices_length_le cs (f.drop (cs - 1)) x h
termination_by f => f.length
decreasing_by simp [List.length_drop]; omega

/-- Every base chunk produced by `_split_fragment` is non-empty and at most
`chunk_size` characters long. -/
theorem splitFragment_bounds (cs : Nat) :
    ∀ (seps : List (List Char)) (fragment : List Char),
      ∀ x ∈ splitFragment cs seps fragment, x ≠ [] ∧ x.length ≤ cs := by
  intro seps
  induction seps with
  | nil =>
      intro fragment x hx
      simp only [splitFragment] at hx
      split_ifs at hx with h1 h2
      · simp at hx
      · simp only [List.mem_singleton] at hx
        subst hx
        exact ⟨h1, h2⟩
      · simp only [List.mem_filter, List.mem_map, decide_eq_true_eq] at hx
        obtain ⟨⟨y, hy, rfl⟩, hne⟩ := hx
        exact ⟨hne, le_trans (pyStrip_length_le y) (hardSlices_length_le cs _ y hy)⟩
  | cons sep rest ih =>
      intro fragment x hx
      simp only [splitFragment] at hx
      split_ifs at hx with h1 h2 h3
      · simp at hx
      · simp only [List.mem_singleton] at hx
        subst hx
        exact ⟨h1, h2⟩
      · exact ih (pyStrip fragment) x hx
      · simp only [List.mem_flatMap] at hx
        obtain ⟨b, _, hxb⟩ := hx
        exact ih b x hxb

/-- The overlap loop keeps every chunk within `chunk_size`, provided its
inputs are. -/
theorem overlapLoop_length_le (cs ov : Nat) (hcs : 1 ≤ cs) :
    ∀ (chunks : List (List Char)) (prev : List Char),
      (∀ x ∈ chunks, x.length ≤ cs) →
      ∀ y ∈ overlapLoop cs ov chunks prev, y.length ≤ cs := by
  intro chunks
  induction chunks with
  | nil => simp [overlapLoop]
  | cons chunk rest ih =>
      intro prev hb y hy
      have hchunk : chunk.length ≤ cs := hb chunk (by simp)
      have hrest : ∀ x ∈ rest, x.length ≤ cs := fun x hx => hb x (by simp [hx])
      simp only [overlapLoop] at hy
      split_ifs at hy with h1 h2 h3
      · exact ih prev hrest y hy
      · rcases List.mem_cons.mp hy with rfl | hy'
        · exact le_trans (pyStrip_length_le chunk) hchunk
        · exact ih _ hrest y hy'
      · rcases List.mem_cons.mp hy with rfl | hy'
        · have hne : cs ≠ 0 := by omega
          simp only [pyLastSlice, hne, if_false, List.length_drop]
          omega
        · exact ih _ hrest y hy'
      · rcases List.mem_cons.mp hy with rfl | hy'
        · omega
        · exact ih _ hrest y hy'

/-- `_apply_overlap` keeps every chunk within `chunk_size`, provided its
inputs are. -/
theorem applyOverlap_length_le (cs ov : Nat) (hcs : 1 ≤ cs)
    (chunks : List (List Char)) (hb : ∀ x ∈ chunks, x.length ≤ cs) :
    ∀ y ∈ applyOverlap cs ov chunks, y.length ≤ cs := by
  unfold applyOverlap
  split_ifs with h
  · exact hb
  · exact overlapLoop_length_le cs ov hcs chunks [] hb

/-- C3: with the constructor-validated `chunk_size ≥ 1`, every chunk
emitted by the recursive-overlap chunker — after base splitting and
overlap application — has `0 < len(chunk) ≤ chunk_size`. -/
theorem recursive_chunker_bounds (cs ov : Nat) (items : List ChunkItem)
    (hcs : 1 ≤ cs) :
    ∀ ch ∈ recursiveChunk cs ov items,
      0 < ch.text.length ∧ ch.text.length ≤ cs := by
  intro ch hch
  simp only [recursiveChunk, List.mem_flatMap] at hch
  obtain ⟨item, _, hch⟩ := hch
  simp only [recursiveChunkItem, List.mem_map, List.mem_filter,
    decide_eq_true_eq] at hch
  obtain ⟨t, ⟨ht, hne⟩, rfl⟩ := hch
  have hbase : ∀ x ∈ splitText cs item.text, x.length ≤ cs := by
    intro x hx
    simp only [splitText, List.mem_filter] at hx
    exact (splitFragment_bounds cs separators (pyStrip item.text) x hx.1).2
  exact ⟨List.length_pos.mpr hne, applyOverlap_length_le cs ov hcs _ hbase t ht⟩

/-- Witness for C3: chunking a two-character text with `chunk_size = 5`. -/
theorem recursive_chunker_bounds_witness :
    0 < (ChunkItem.mk "s" 2 ['a', 'b']).text.length ∧
    (ChunkItem.mk "s" 2 ['a', 'b']).text.length ≤ 5 :=
  recursive_chunker_bounds 5 1 [⟨"s", 2, ['a', 'b']⟩] (by decide)
    ⟨"s", 2, ['a', 'b']⟩ (by decide)

/-- C4, counterexample: the semantic chunker applied to a single item with
empty text returns one chunk (with empty text), not an empty result — the
trivial branch at semantic_chunker.py lines 57-61 appends
`ChunkItem(source, 0, "")`. -/
theorem semantic_chunk_empty_not_empty :
    semanticChunk (fun _ => []) (fun _ => none) (fun _ => []) 1
      [⟨"doc.pdf", 0, []⟩] = [⟨"doc.pdf", 0, []⟩] ∧
    semanticChunk (fun _ => []) (fun _ => none) (fun _ => []) 1
      [⟨"doc.pdf", 0, []⟩] ≠ [] := by
  constructor <;> decide

/-- C4, amended: chunking an input item with empty text raises no error in
either strategy; the recursive-overlap chunker yields an empty result,
while the semantic chunker yields exactly one chunk whose text is empty
(of recorded length 0). -/
theorem empty_text_chunking (cs ov buffer_size : Nat) (src : String)
    (propOracle : ChunkItem → List ChunkItem)
    (sentOracle : List Char → Option (List (List Char)))
    (breakOracle : List (List Char) → List Nat) :
    recursiveChunk cs ov [⟨src, 0, []⟩] = [] ∧
    semanticChunk propOracle sentOracle breakOracle buffer_size
      [⟨src, 0, []⟩] = [⟨src, 0, []⟩] := by
  constructor
  · simp [recursiveChunk, recursiveChunkItem, splitText, splitFragment,
      pyStrip, applyOverlap, separators]
  · simp [semanticChunk, semanticChunkItem, t5ProposeItem,
      langchainSplitToSentences, List.intercalate]

/-- C1: evaluating the retrieval path with both LLM flags disabled on a
store answering with two scored nodes (same source) shows the code returns
the 2-tuple of concatenated text and deduplicated source list — carrying
no per-result similarity scores and not a list of `min(top_k,
store_count)` results (its second component has length 1, not 2). -/
theorem retrieve_no_llm_returns_joined_pair :
    retrieval_agent_retrieve_noLLM
      [⟨"t1", [("source", "s1")]⟩, ⟨"t2", [("source", "s1")]⟩] =
      ("t1\n\nt2", ["s1"]) ∧
    (retrieval_agent_retrieve_noLLM
      [⟨"t1", [("source", "s1")]⟩, ⟨"t2", [("source", "s1")]⟩]).2.length = 1 := by
  constructor <;> decide

end LegalRag
